import Mathlib

/-!
Verification of the ChronoPedia single-page application (src/app.py).

The application is a Streamlit script driven by a per-session state record
with four fields (`search_topic`, `last_article`, `pdf_buffer`,
`chat_history`).  Each user action (search submit, disambiguation click,
PDF-generate click, chat message) runs an event handler that rewrites this
record.  External services (the encyclopedia lookup, the streaming
text-generation API) are modelled as oracle functions passed in as
parameters.  The PDF renderer is modelled by the list of paragraph source
strings handed to it (the `story` built in `create_pdf`), together with a
text-extraction function that interprets the only markup the application
itself emits (`<br/>` line breaks).
-/

namespace Chrono

/-- The quote character (ASCII 39), used by the f-strings in the source. -/
def sq : String := String.singleton (Char.ofNat 39)

/-- An encyclopedia article as stored in `st.session_state.last_article`:
`{"title": page.title, "summary": page.summary, "url": page.url}`. -/
structure Article where
  title : String
  summary : String
  url : String
deriving DecidableEq

/-- Chat roles appearing in `st.session_state.chat_history` entries. -/
inductive Role where
  | user
  | assistant
deriving DecidableEq

/-- One transcript entry `{"role": ..., "text": ...}`. -/
structure ChatTurn where
  role : Role
  text : String
deriving DecidableEq

/-- Result of the external lookup service (`wikipedia.page`): a unique page,
a `DisambiguationError` carrying candidate titles, or any other failure
(collapsed by the source's catch-all `except Exception`). -/
inductive LookupResult where
  | page (title summary url : String)
  | disambiguation (options : List String)
  | notFound
deriving DecidableEq

/-- The PDF artifact, modelled by the list of paragraph source strings of the
`story` built in `create_pdf` (the `Spacer` carries no text). -/
structure Pdf where
  story : List String
deriving DecidableEq

/-- List-level scan: does `pat` occur at the head of the list? -/
def leadMatch (pat : List Char) : List Char → Bool
  | [] => pat.isEmpty
  | c :: cs =>
    match pat with
    | [] => true
    | p :: ps => p == c && leadMatch ps cs

/-- List-level substring occurrence test. -/
def occursIn (pat : List Char) : List Char → Bool
  | [] => pat.isEmpty
  | c :: cs => leadMatch pat (c :: cs) || occursIn pat cs

/-- Left-to-right, non-overlapping replacement of a nonempty pattern,
mirroring Python's `str.replace` for the nonempty patterns the source uses. -/
def replChars (pat rep : List Char) : List Char → List Char
  | [] => []
  | c :: cs =>
    if pat ≠ [] ∧ leadMatch pat (c :: cs) then
      rep ++ replChars pat rep (cs.drop (pat.length - 1))
    else
      c :: replChars pat rep cs
termination_by l => l.length
decreasing_by
  · simp only [List.length_drop, List.length_cons]
    omega
  · simp only [List.length_cons]
    omega

/-- String-level replacement (the model of Python's `str.replace`). -/
def replaceStr (s pat rep : String) : String :=
  (replChars pat.toList rep.toList s.toList).asString

/-- String-level substring occurrence test. -/
def occursStr (pat s : String) : Bool :=
  occursIn pat.toList s.toList

/-- The character list of the line-break markup `<br/>`. -/
def brP : List Char := ['<', 'b', 'r', '/', '>']

/-- The character list of the newline string. -/
def nlP : List Char := ['\n']

/-- The source-link paragraph text: `f"Source: <a href='{url}'>{url}</a>"`. -/
def sourceLine (url : String) : String :=
  "Source: <a href=" ++ sq ++ url ++ sq ++ ">" ++ url ++ "</a>"

/-- `create_pdf(title, summary, url)` from src/app.py: the story is the title
paragraph, the summary paragraph with newlines encoded as `<br/>` markup, and
the source-link paragraph. -/
def create_pdf (title summary url : String) : Pdf :=
  { story := [title, replaceStr summary "\n" "<br/>", sourceLine url] }

/-- Join rendered paragraphs, one per line. -/
def joinLines : List String → String
  | [] => ""
  | [t] => t
  | t :: ts => t ++ "\n" ++ joinLines ts

/-- Modelled from the behaviour of the external document renderer (reportlab,
not part of this repository): a paragraph's extracted text is its source
string with the `<br/>` line-break markup — the only markup the application
emits — rendered back as a newline. -/
def renderParagraph (t : String) : String :=
  replaceStr t "<br/>" "\n"

/-- The textual content extracted from the exported PDF: the rendered
paragraphs of the story, one per line. -/
def pdfTextContent (p : Pdf) : String :=
  joinLines (p.story.map renderParagraph)

/-- The per-session state record (`st.session_state`). -/
structure SessionState where
  search_topic : String
  last_article : Option Article
  pdf_buffer : Option Pdf
  chat_history : List ChatTurn
deriving DecidableEq

/-- The initial session state set up at lines 188-195 of src/app.py. -/
def initialState : SessionState :=
  { search_topic := "", last_article := none, pdf_buffer := none, chat_history := [] }

/-- The "Initiate Search" button handler (lines 220-225): stores the query
and clears the article, the PDF buffer and the transcript. -/
def initiateSearch (s : SessionState) (input : String) : SessionState :=
  { s with search_topic := input, last_article := none, pdf_buffer := none,
           chat_history := [] }

/-- The search-resolution block (lines 227-240): runs when a topic is pending
and no article is loaded; a unique page is stored verbatim as the Article,
while disambiguation and failure leave the state unchanged (they only render
buttons resp. an error message). -/
def resolveSearch (lookup : String → LookupResult) (s : SessionState) : SessionState :=
  if s.search_topic ≠ "" ∧ s.last_article = none then
    match lookup s.search_topic with
    | LookupResult.page t su u =>
        { s with last_article := some { title := t, summary := su, url := u } }
    | LookupResult.disambiguation _ => s
    | LookupResult.notFound => s
  else s

/-- The candidate titles rendered as buttons on a `DisambiguationError`:
`e.options[:5]` (line 235). -/
def optionsShown : LookupResult → List String
  | LookupResult.disambiguation opts => opts.take 5
  | _ => []

/-- The candidates presented in the current render: nonempty only inside the
pending-search branch when the lookup is ambiguous. -/
def presentedOptions (lookup : String → LookupResult) (s : SessionState) : List String :=
  if s.search_topic ≠ "" ∧ s.last_article = none then
    optionsShown (lookup s.search_topic)
  else []

/-- A disambiguation option button click (lines 236-238): the selected
candidate becomes the pending search topic. -/
def selectOption (s : SessionState) (opt : String) : SessionState :=
  { s with search_topic := opt }

/-- The "Generate PDF Report" button handler (lines 204-208): renders the
loaded article into the PDF buffer.  The button only exists when an article
is loaded; without one the state is unchanged. -/
def generatePdf (s : SessionState) : SessionState :=
  match s.last_article with
  | some a => { s with pdf_buffer := some (create_pdf a.title a.summary a.url) }
  | none => s

/-- `final_prompt` (lines 269-272): with an article loaded the user message
is wrapped together with the article's title and summary, otherwise it is
sent raw. -/
def final_prompt (s : SessionState) (prompt : String) : String :=
  match s.last_article with
  | some a =>
      "Based on this article summary about " ++ sq ++ a.title ++ sq ++ ": " ++
        sq ++ a.summary ++ sq ++ ", answer the user" ++ sq ++ "s question: " ++
        sq ++ prompt ++ sq
  | none => prompt

/-- The streaming loop (lines 277-280): `full_response` starts empty and each
fragment is appended in arrival order. -/
def streamConcat (chunks : List String) : String :=
  chunks.foldl (fun acc c => acc ++ c) ""

/-- Specification-side concatenation of fragments in arrival order. -/
def concatFragments : List String → String
  | [] => ""
  | c :: cs => c ++ concatFragments cs

/-- The chat-input handler (lines 267-282): append the user turn, stream the
reply to `final_prompt`, append one assistant turn with the concatenation. -/
def chatSubmit (s : SessionState) (prompt : String) (chunks : List String) : SessionState :=
  let s1 : SessionState :=
    { s with chat_history := s.chat_history ++ [{ role := Role.user, text := prompt }] }
  { s1 with chat_history :=
      s1.chat_history ++ [{ role := Role.assistant, text := streamConcat chunks }] }

/-- Run `n` complete chat exchanges, one per prompt, the reply fragments
supplied by the text-generation oracle `llm`. -/
def chatRounds (llm : String → List String) : List String → SessionState → SessionState
  | [], s => s
  | p :: ps, s => chatRounds llm ps (chatSubmit s p (llm (final_prompt s p)))

/-- The roles of a transcript, in order. -/
def rolesOf (h : List ChatTurn) : List Role :=
  h.map ChatTurn.role

/-- The strictly alternating role pattern user, assistant, ..., of length 2n. -/
def pairsPattern : Nat → List Role
  | 0 => []
  | Nat.succ n => Role.user :: Role.assistant :: pairsPattern n

/-- Outcome of one execution of the assistant column (lines 251-283). -/
structure AssistantRender where
  config_warning : Bool
  llm_requests : List String
  state : SessionState
deriving DecidableEq

/-- The assistant column (lines 251-283): without a configured credential it
renders only the configuration-error message and touches nothing (lines
253-254); otherwise a submitted chat message triggers exactly one
text-generation request. -/
def renderAssistant (gemini_configured : Bool) (llm : String → List String)
    (s : SessionState) (msg : Option String) : AssistantRender :=
  if gemini_configured then
    match msg with
    | some prompt =>
        AssistantRender.mk false [final_prompt s prompt]
          (chatSubmit s prompt (llm (final_prompt s prompt)))
    | none => AssistantRender.mk false [] s
  else
    AssistantRender.mk true [] s

/-- One user-visible transition of the application state. -/
inductive Step (cfg : Bool) (lookup : String → LookupResult) (llm : String → List String) :
    SessionState → SessionState → Prop where
  | search (s : SessionState) (input : String) :
      Step cfg lookup llm s (initiateSearch s input)
  | resolve (s : SessionState) :
      Step cfg lookup llm s (resolveSearch lookup s)
  | select (s : SessionState) (opt : String) :
      opt ∈ presentedOptions lookup s →
      Step cfg lookup llm s (selectOption s opt)
  | generate (s : SessionState) :
      s.last_article.isSome = true →
      Step cfg lookup llm s (generatePdf s)
  | chat (s : SessionState) (prompt : String) :
      cfg = true →
      Step cfg lookup llm s (chatSubmit s prompt (llm (final_prompt s prompt)))

/-- Session states reachable from the initial state. -/
inductive Reachable (cfg : Bool) (lookup : String → LookupResult) (llm : String → List String) :
    SessionState → Prop where
  | init : Reachable cfg lookup llm initialState
  | step {s s' : SessionState} :
      Reachable cfg lookup llm s → Step cfg lookup llm s s' →
      Reachable cfg lookup llm s'

/-- Concrete lookup oracle used in counterexamples: the query "Q" is
ambiguous between "UK" and "Ukulele", and the candidate "UK" resolves
(via auto-suggest / redirect following) to the page titled "United Kingdom". -/
def lookupCE : String → LookupResult := fun q =>
  if q = "Q" then LookupResult.disambiguation ["UK", "Ukulele"]
  else if q = "UK" then LookupResult.page "United Kingdom" "Summary of the UK" "https://en.wikipedia.org/wiki/United_Kingdom"
  else LookupResult.notFound

/-- Session state after submitting the search "Q" (and before resolution). -/
def sCE : SessionState :=
  { search_topic := "Q", last_article := none, pdf_buffer := none, chat_history := [] }

/-- Concrete lookup oracle resolving every query to one fixed page. -/
def lookupW : String → LookupResult := fun _ =>
  LookupResult.page "T" "S" "U"

/-- The session-state invariant backing the sidebar download block: a cached
PDF buffer is only ever present while an Article is loaded. -/
def StateInv (s : SessionState) : Prop :=
  s.pdf_buffer.isSome = true → s.last_article.isSome = true

/- ------------------------------------------------------------------ -/
/- Theorems                                                            -/
/- ------------------------------------------------------------------ -/

theorem str_append_assoc (a b c : String) : a ++ b ++ c = a ++ (b ++ c) := by
  apply String.ext
  simp [String.data_append, List.append_assoc]

theorem str_append_empty (a : String) : a ++ "" = a := by
  apply String.ext
  simp [String.data_append]

theorem streamConcat_acc (l : List String) :
    ∀ a : String, l.foldl (fun acc c => acc ++ c) a = a ++ concatFragments l := by
  induction l with
  | nil => intro a; simp [concatFragments, str_append_empty]
  | cons c cs ih =>
      intro a
      simp only [List.foldl_cons, concatFragments, ih (a ++ c), str_append_assoc]

theorem streamConcat_eq (l : List String) : streamConcat l = concatFragments l := by
  have h := streamConcat_acc l ""
  simpa [streamConcat] using h

theorem resolveSearch_page
    (lookup : String → LookupResult) (s : SessionState) (t su u : String)
    (htopic : s.search_topic ≠ "") (hnone : s.last_article = none)
    (hlook : lookup s.search_topic = LookupResult.page t su u) :
    (resolveSearch lookup s).last_article = some { title := t, summary := su, url := u } := by
  unfold resolveSearch
  rw [if_pos ⟨htopic, hnone⟩, hlook]

/-- C1: when the pending query resolves to exactly one page, the Article
stored in session state has title, summary and url equal, character for
character, to the lookup service's response for that query. -/
theorem C1_unique_page_stored_verbatim
    (lookup : String → LookupResult) (s : SessionState) (t su u : String)
    (htopic : s.search_topic ≠ "") (hnone : s.last_article = none)
    (hlook : lookup s.search_topic = LookupResult.page t su u) :
    (resolveSearch lookup s).last_article = some { title := t, summary := su, url := u } :=
  resolveSearch_page lookup s t su u htopic hnone hlook

theorem C1_witness :
    (resolveSearch (fun _ => LookupResult.page "A" "B" "C") sCE).last_article =
      some { title := "A", summary := "B", url := "C" } :=
  C1_unique_page_stored_verbatim (fun _ => LookupResult.page "A" "B" "C") sCE
    "A" "B" "C" (by decide) rfl rfl

/-- C2: submitting a new search clears the loaded Article, the transcript and
the cached PDF buffer, whatever they held before. -/
theorem C2_search_clears_state (s : SessionState) (input : String) :
    (initiateSearch s input).last_article = none ∧
    (initiateSearch s input).chat_history = [] ∧
    (initiateSearch s input).pdf_buffer = none :=
  ⟨rfl, rfl, rfl⟩

/-- C7: the single assistant turn appended on stream completion holds exactly
the concatenation, in arrival order, of all fragments delivered for that
request (and it follows the user's turn at the end of the transcript). -/
theorem C7_assistant_turn_is_ordered_concat
    (s : SessionState) (prompt : String) (chunks : List String) :
    (chatSubmit s prompt chunks).chat_history =
      s.chat_history ++
        [{ role := Role.user, text := prompt },
         { role := Role.assistant, text := concatFragments chunks }] := by
  simp [chatSubmit, streamConcat_eq, List.append_assoc]

/-- C8: the export step is a pure function of the Article: any two session
states holding the same Article produce the same PDF buffer, namely the
rendering of that Article's title, summary and url, independent of any other
state. -/
theorem C8_export_pure (a : Article) (s1 s2 : SessionState)
    (h1 : s1.last_article = some a) (h2 : s2.last_article = some a) :
    (generatePdf s1).pdf_buffer = some (create_pdf a.title a.summary a.url) ∧
    (generatePdf s1).pdf_buffer = (generatePdf s2).pdf_buffer := by
  unfold generatePdf
  rw [h1, h2]
  exact ⟨rfl, rfl⟩

theorem C8_witness :
    (generatePdf { search_topic := "x", last_article := some { title := "T", summary := "S", url := "U" },
                   pdf_buffer := none, chat_history := [] }).pdf_buffer =
      some (create_pdf "T" "S" "U") ∧
    (generatePdf { search_topic := "x", last_article := some { title := "T", summary := "S", url := "U" },
                   pdf_buffer := none, chat_history := [] }).pdf_buffer =
    (generatePdf { search_topic := "y", last_article := some { title := "T", summary := "S", url := "U" },
                   pdf_buffer := some { story := ["old"] },
                   chat_history := [{ role := Role.user, text := "m" }] }).pdf_buffer :=
  C8_export_pure { title := "T", summary := "S", url := "U" } _ _ rfl rfl

/-- C9: the candidate list presented on an ambiguous lookup is an initial
segment of the service's list — it preserves the service's order — and has
at most 5 entries. -/
theorem C9_options_ordered_bounded (opts : List String) :
    (optionsShown (LookupResult.disambiguation opts)).length ≤ 5 ∧
    optionsShown (LookupResult.disambiguation opts) ++ opts.drop 5 = opts := by
  constructor
  · simp only [optionsShown]
    exact List.length_take_le 5 opts
  · simp [optionsShown]

/-- C6: with no API credential configured, one execution of the assistant
column issues no text-generation request, shows the configuration-error
warning, and leaves the session state (hence the rest of the page) intact —
whatever message the user submits. -/
theorem C6_no_credential_no_calls
    (cfg : Bool) (llm : String → List String) (s : SessionState) (msg : Option String)
    (hcfg : cfg = false) :
    (renderAssistant cfg llm s msg).llm_requests = [] ∧
    (renderAssistant cfg llm s msg).config_warning = true ∧
    (renderAssistant cfg llm s msg).state = s := by
  subst hcfg
  exact ⟨rfl, rfl, rfl⟩

theorem C6_witness :
    (renderAssistant false (fun _ => ["x"]) initialState (some "hi")).llm_requests = [] ∧
    (renderAssistant false (fun _ => ["x"]) initialState (some "hi")).config_warning = true ∧
    (renderAssistant false (fun _ => ["x"]) initialState (some "hi")).state = initialState :=
  C6_no_credential_no_calls false (fun _ => ["x"]) initialState (some "hi") rfl

theorem chatSubmit_history (s : SessionState) (p : String) (chunks : List String) :
    (chatSubmit s p chunks).chat_history =
      s.chat_history ++
        [{ role := Role.user, text := p },
         { role := Role.assistant, text := streamConcat chunks }] := by
  simp [chatSubmit, List.append_assoc]

theorem pairsPattern_length (n : Nat) : (pairsPattern n).length = 2 * n := by
  induction n with
  | zero => rfl
  | succ n ih =>
      simp only [pairsPattern, List.length_cons, ih]
      omega

theorem chatRounds_roles (llm : String → List String) (ps : List String) :
    ∀ s : SessionState,
      rolesOf (chatRounds llm ps s).chat_history =
        rolesOf s.chat_history ++ pairsPattern ps.length := by
  induction ps with
  | nil => intro s; simp [chatRounds, pairsPattern]
  | cons p ps ih =>
      intro s
      have h1 : chatRounds llm (p :: ps) s =
          chatRounds llm ps (chatSubmit s p (llm (final_prompt s p))) := rfl
      rw [h1, ih, chatSubmit_history]
      simp [rolesOf, pairsPattern, List.append_assoc]

/-- C3: starting from an empty transcript, `n` user messages each followed by
a completed assistant reply leave exactly `2n` entries whose roles strictly
alternate user, assistant, ..., starting with user. -/
theorem C3_transcript_alternates
    (llm : String → List String) (ps : List String) (s : SessionState)
    (h : s.chat_history = []) :
    (chatRounds llm ps s).chat_history.length = 2 * ps.length ∧
    rolesOf (chatRounds llm ps s).chat_history = pairsPattern ps.length := by
  have hr := chatRounds_roles llm ps s
  rw [h] at hr
  simp only [rolesOf, List.map_nil, List.nil_append] at hr
  refine ⟨?_, hr⟩
  have hlen : (List.map ChatTurn.role (chatRounds llm ps s).chat_history).length =
      (chatRounds llm ps s).chat_history.length := List.length_map _ _
  rw [← hlen, hr, pairsPattern_length]

theorem C3_witness :
    (chatRounds (fun _ => ["a", "b"]) ["p", "q"] initialState).chat_history.length = 2 * 2 ∧
    rolesOf (chatRounds (fun _ => ["a", "b"]) ["p", "q"] initialState).chat_history =
      pairsPattern 2 :=
  C3_transcript_alternates (fun _ => ["a", "b"]) ["p", "q"] initialState rfl

theorem inv_initiateSearch (s : SessionState) (input : String) :
    StateInv (initiateSearch s input) := by
  intro hp
  simp [initiateSearch] at hp

theorem inv_resolveSearch (lookup : String → LookupResult) (s : SessionState)
    (h : StateInv s) : StateInv (resolveSearch lookup s) := by
  unfold resolveSearch
  split
  · split
    · intro _; rfl
    · exact h
    · exact h
  · exact h

theorem inv_generatePdf (s : SessionState) (h : StateInv s) : StateInv (generatePdf s) := by
  unfold generatePdf
  split
  · intro _
    simp [*]
  · exact h

theorem step_preserves_inv {cfg : Bool} {lookup : String → LookupResult}
    {llm : String → List String} {s s' : SessionState}
    (hstep : Step cfg lookup llm s s') (h : StateInv s) : StateInv s' := by
  cases hstep with
  | search input => exact inv_initiateSearch s input
  | resolve => exact inv_resolveSearch lookup s h
  | select opt hmem => exact h
  | generate ha => exact inv_generatePdf s h
  | chat prompt hcfg => exact h

theorem reachable_inv {cfg : Bool} {lookup : String → LookupResult}
    {llm : String → List String} {s : SessionState}
    (h : Reachable cfg lookup llm s) : StateInv s := by
  induction h with
  | init => intro hp; simp [initialState] at hp
  | step _ hstep ih => exact step_preserves_inv hstep ih

/-- C10: in every reachable session state, a non-empty cached PDF buffer
implies that an Article is loaded, so the download block's read of the
Article's title never dereferences a missing Article. -/
theorem C10_pdf_implies_article
    (cfg : Bool) (lookup : String → LookupResult) (llm : String → List String)
    (s : SessionState) (hreach : Reachable cfg lookup llm s)
    (hpdf : s.pdf_buffer.isSome = true) : s.last_article.isSome = true :=
  reachable_inv hreach hpdf

theorem C10_witness :
    (generatePdf (resolveSearch lookupW (initiateSearch initialState "Q"))).last_article.isSome
      = true :=
  C10_pdf_implies_article true lookupW (fun _ => [])
    (generatePdf (resolveSearch lookupW (initiateSearch initialState "Q")))
    (Reachable.step
      (Reachable.step
        (Reachable.step Reachable.init (Step.search initialState "Q"))
        (Step.resolve (initiateSearch initialState "Q")))
      (Step.generate (resolveSearch lookupW (initiateSearch initialState "Q")) (by decide)))
    (by decide)

/-- C4 as stated is false: the lookup call for a selected candidate uses
auto-suggest and redirect following, so the unique page it returns need not
carry the candidate as its title.  Concretely, with the oracle `lookupCE` the
candidate "UK" is in the presented list, resolves uniquely, and the stored
Article is titled "United Kingdom", not "UK". -/
theorem C4_counterexample :
    "UK" ∈ presentedOptions lookupCE sCE ∧
    (resolveSearch lookupCE (selectOption sCE "UK")).last_article =
      some { title := "United Kingdom", summary := "Summary of the UK",
             url := "https://en.wikipedia.org/wiki/United_Kingdom" } ∧
    ¬ ("United Kingdom" = "UK") := by
  decide

/-- C4 amended: selecting a candidate makes it the pending search topic
verbatim, and when the lookup service resolves that candidate to a unique
page the stored Article equals the service's response — so its title equals
the candidate exactly when the service returns the candidate as the page
title. -/
theorem C4_amended_select_resolves
    (lookup : String → LookupResult) (s : SessionState) (opt t su u : String)
    (hopt : opt ≠ "") (hnone : s.last_article = none)
    (hlook : lookup opt = LookupResult.page t su u) :
    (selectOption s opt).search_topic = opt ∧
    (resolveSearch lookup (selectOption s opt)).last_article =
      some { title := t, summary := su, url := u } :=
  ⟨rfl, resolveSearch_page lookup (selectOption s opt) t su u hopt hnone hlook⟩

theorem leadMatch_nil (l : List Char) : leadMatch [] l = true := by
  cases l <;> rfl

theorem leadMatch_append_self (pat rest : List Char) : leadMatch pat (pat ++ rest) = true := by
  induction pat with
  | nil => exact leadMatch_nil rest
  | cons p ps ih => simp [leadMatch, ih]

theorem leadMatch_iff (pat : List Char) : ∀ l, leadMatch pat l = true ↔ ∃ t, l = pat ++ t := by
  induction pat with
  | nil =>
      intro l
      constructor
      · intro _; exact ⟨l, (List.nil_append l).symm⟩
      · intro _; exact leadMatch_nil l
  | cons p ps ih =>
      intro l
      cases l with
      | nil =>
          simp only [leadMatch, List.cons_append]
          constructor
          · intro h; simp [List.isEmpty] at h
          · rintro ⟨t, ht⟩; exact absurd ht (by simp)
      | cons c cs =>
          simp only [leadMatch, List.cons_append]
          rw [Bool.and_eq_true, beq_iff_eq, ih cs]
          constructor
          · rintro ⟨hpc, t, ht⟩
            exact ⟨t, by rw [ht, hpc]⟩
          · rintro ⟨t, ht⟩
            injection ht with h1 h2
            exact ⟨h1.symm, t, h2⟩

theorem occursIn_nil_pat (l : List Char) : occursIn [] l = true := by
  cases l with
  | nil => rfl
  | cons c cs => simp [occursIn, leadMatch_nil]

theorem occursIn_cons (pat : List Char) (c : Char) (cs : List Char) :
    occursIn pat (c :: cs) = (leadMatch pat (c :: cs) || occursIn pat cs) := rfl

theorem occursIn_self_append (pat rest : List Char) : occursIn pat (pat ++ rest) = true := by
  cases pat with
  | nil => exact occursIn_nil_pat rest
  | cons p ps =>
      rw [List.cons_append, occursIn_cons]
      have h := leadMatch_append_self (p :: ps) rest
      rw [List.cons_append] at h
      rw [h, Bool.true_or]

theorem occursIn_append_right (pat : List Char) :
    ∀ x y, occursIn pat y = true → occursIn pat (x ++ y) = true := by
  intro x
  induction x with
  | nil => intro y h; exact h
  | cons c x' ih =>
      intro y h
      rw [List.cons_append, occursIn_cons, ih y h, Bool.or_true]

theorem replChars_nil (pat rep : List Char) : replChars pat rep [] = [] := by
  simp [replChars]

theorem replChars_cons_neg (pat rep : List Char) (c : Char) (cs : List Char)
    (h : leadMatch pat (c :: cs) = false) :
    replChars pat rep (c :: cs) = c :: replChars pat rep cs := by
  rw [replChars, if_neg]
  rintro ⟨-, h2⟩
  rw [h] at h2
  exact Bool.false_ne_true h2

theorem replChars_pat_head (pat rep rest : List Char) (h : pat ≠ []) :
    replChars pat rep (pat ++ rest) = rep ++ replChars pat rep rest := by
  cases pat with
  | nil => exact absurd rfl h
  | cons p ps =>
      rw [List.cons_append, replChars, if_pos]
      · congr 1
        have h1 : (p :: ps).length - 1 = ps.length := by simp
        rw [h1, List.drop_left]
      · refine ⟨by simp, ?_⟩
        have h2 := leadMatch_append_self (p :: ps) rest
        rw [List.cons_append] at h2
        exact h2

theorem replChars_of_not_occurs (pat rep : List Char) :
    ∀ l, occursIn pat l = false → replChars pat rep l = l := by
  intro l
  induction l with
  | nil => intro _; exact replChars_nil pat rep
  | cons c cs ih =>
      intro h
      rw [occursIn_cons, Bool.or_eq_false_iff] at h
      rw [replChars_cons_neg pat rep c cs h.1, ih h.2]

theorem replChars_nl (rep : List Char) (c : Char) (cs : List Char) :
    replChars nlP rep (c :: cs) =
      if c = '\n' then rep ++ replChars nlP rep cs else c :: replChars nlP rep cs := by
  by_cases hc : c = '\n'
  · rw [if_pos hc, hc]
    have h := replChars_pat_head nlP rep cs (by simp [nlP])
    simpa [nlP] using h
  · rw [if_neg hc]
    apply replChars_cons_neg
    have hb : ('\n' == c) = false := beq_eq_false_iff_ne.mpr (fun h => hc h.symm)
    simp [leadMatch, nlP, hb]

theorem replNl_cons_decode {d : Char} (hd1 : d ≠ '<') :
    ∀ cs rest, replChars nlP brP cs = d :: rest →
      ∃ cs', cs = d :: cs' ∧ replChars nlP brP cs' = rest := by
  intro cs rest h
  cases cs with
  | nil => rw [replChars_nil] at h; exact absurd h (by simp)
  | cons c cs' =>
      rw [replChars_nl] at h
      by_cases hc : c = '\n'
      · rw [if_pos hc] at h
        have hh := congrArg List.head? h
        simp [brP] at hh
        exact absurd hh.symm hd1
      · rw [if_neg hc] at h
        injection h with h1 h2
        exact ⟨cs', by rw [h1], h2⟩

theorem replRoundTrip : ∀ l, occursIn brP l = false →
    replChars brP nlP (replChars nlP brP l) = l := by
  intro l
  induction l with
  | nil => intro _; rw [replChars_nil, replChars_nil]
  | cons c cs ih =>
      intro h
      rw [occursIn_cons, Bool.or_eq_false_iff] at h
      obtain ⟨hlead, htail⟩ := h
      rw [replChars_nl]
      by_cases hc : c = '\n'
      · rw [if_pos hc]
        rw [replChars_pat_head brP nlP _ (by simp [brP]), ih htail, hc]
        simp [nlP]
      · rw [if_neg hc]
        have hlm : leadMatch brP (c :: replChars nlP brP cs) = false := by
          by_contra hne
          have htrue : leadMatch brP (c :: replChars nlP brP cs) = true := by
            revert hne
            cases leadMatch brP (c :: replChars nlP brP cs) <;> simp
          rw [leadMatch_iff] at htrue
          obtain ⟨w, hw⟩ := htrue
          simp only [brP, List.cons_append, List.nil_append, List.cons.injEq] at hw
          obtain ⟨hc1, hrest⟩ := hw
          obtain ⟨cs1, hcs1, h1⟩ := replNl_cons_decode (by decide) cs _ hrest
          obtain ⟨cs2, hcs2, h2⟩ := replNl_cons_decode (by decide) cs1 _ h1
          obtain ⟨cs3, hcs3, h3⟩ := replNl_cons_decode (by decide) cs2 _ h2
          obtain ⟨cs4, hcs4, h4⟩ := replNl_cons_decode (by decide) cs3 _ h3
          have hfull : leadMatch brP (c :: cs) = true := by
            rw [hc1, hcs1, hcs2, hcs3, hcs4]
            simp [brP, leadMatch, leadMatch_nil]
          rw [hlead] at hfull
          exact Bool.false_ne_true hfull
        rw [replChars_cons_neg brP nlP _ _ hlm, ih htail]

theorem leadMatch_of_le (pat : List Char) :
    ∀ a b, leadMatch pat (a ++ b) = true → pat.length ≤ a.length → leadMatch pat a = true := by
  induction pat with
  | nil => intro a _ _ _; exact leadMatch_nil a
  | cons p ps ih =>
      intro a b h hlen
      cases a with
      | nil => simp at hlen
      | cons c a' =>
          rw [List.cons_append] at h
          simp only [leadMatch] at h ⊢
          rw [Bool.and_eq_true] at h ⊢
          refine ⟨h.1, ih a' b h.2 ?_⟩
          simp only [List.length_cons] at hlen
          omega

theorem occursIn_append_or (n : List Char) : ∀ x y, occursIn n (x ++ y) = true →
    occursIn n x = true ∨ occursIn n y = true ∨
      ∃ x1 s, x = x1 ++ s ∧ s ≠ [] ∧ s.length < n.length ∧ leadMatch n (s ++ y) = true := by
  intro x
  induction x with
  | nil => intro y h; exact Or.inr (Or.inl h)
  | cons c x' ih =>
      intro y h
      rw [List.cons_append, occursIn_cons, Bool.or_eq_true] at h
      rcases h with h1 | h2
      · by_cases hle : n.length ≤ (c :: x').length
        · left
          have hm : leadMatch n ((c :: x') ++ y) = true := by
            rw [List.cons_append]; exact h1
          rw [occursIn_cons, leadMatch_of_le n (c :: x') y hm hle, Bool.true_or]
        · right; right
          refine ⟨[], c :: x', rfl, by simp, ?_, ?_⟩
          · simp only [List.length_cons] at hle ⊢
            omega
          · rw [List.cons_append]; exact h1
      · rcases ih y h2 with ha | hb | ⟨x1, s, hx, hs1, hs2, hs3⟩
        · left; rw [occursIn_cons, ha, Bool.or_true]
        · right; left; exact hb
        · right; right
          exact ⟨c :: x1, s, by rw [List.cons_append, hx], hs1, hs2, hs3⟩

theorem straddle_heads {s y : List Char} (hne : s ≠ []) (hlen : s.length < 5)
    (hlead : leadMatch brP (s ++ y) = true) :
    s.head? = some '<' ∧
      (y.head? = some 'b' ∨ y.head? = some 'r' ∨ y.head? = some '/' ∨ y.head? = some '>') := by
  rw [leadMatch_iff] at hlead
  obtain ⟨t, ht⟩ := hlead
  rw [List.append_eq_append_iff] at ht
  rcases ht with ⟨a', ha1, ha2⟩ | ⟨c', hc1, -⟩
  · have hlen5 : s.length + a'.length = 5 := by
      have hl := congrArg List.length ha1
      simp [brP] at hl
      omega
    constructor
    · cases s with
      | nil => exact absurd rfl hne
      | cons a s0 =>
          rw [List.cons_append] at ha1
          have hh := congrArg List.head? ha1
          simp [brP] at hh
          rw [List.head?_cons, hh]
    · have ha' : a' = brP.drop s.length := by
        rw [ha1, List.drop_left]
      have hpos : 0 < s.length := List.length_pos.mpr hne
      have hcases : s.length = 1 ∨ s.length = 2 ∨ s.length = 3 ∨ s.length = 4 := by omega
      rcases hcases with h | h | h | h <;> rw [h] at ha' <;> rw [ha2, ha'] <;> simp [brP]
  · exfalso
    have hl := congrArg List.length hc1
    simp [brP] at hl
    omega

theorem no_head_lt_suffix_src (x1 s : List Char)
    (h : "Source: <a href=".toList = x1 ++ s) (hne : s ≠ []) (hlen : s.length < 5) :
    s.head? ≠ some '<' := by
  intro hhead
  have hs : s = ("Source: <a href=".toList).drop x1.length := by
    rw [h, List.drop_left]
  have hlens : ("Source: <a href=".toList).length = x1.length + s.length := by
    rw [h]; simp
  have h16 : ("Source: <a href=".toList).length = 16 := by decide
  have hpos : 0 < s.length := List.length_pos.mpr hne
  have hcases : x1.length = 12 ∨ x1.length = 13 ∨ x1.length = 14 ∨ x1.length = 15 := by omega
  rcases hcases with h' | h' | h' | h' <;> rw [h'] at hs <;> rw [hs] at hhead <;>
    exact absurd hhead (by decide)

theorem no_head_lt_suffix_single (a : Char) (ha : a ≠ '<') (x1 s : List Char)
    (h : [a] = x1 ++ s) (hne : s ≠ []) : s.head? ≠ some '<' := by
  intro hhead
  cases x1 with
  | nil =>
      rw [List.nil_append] at h
      rw [← h] at hhead
      simp at hhead
      exact ha hhead
  | cons b x1' =>
      rw [List.cons_append] at h
      injection h with h1 h2
      exact hne (List.append_eq_nil.mp h2.symm).2

theorem sourceLine_no_br (v : List Char) (hv : occursIn brP v = false) :
    occursIn brP ("Source: <a href=".toList ++ (sq.toList ++ (v ++ (sq.toList ++
      (">".toList ++ (v ++ "</a>".toList)))))) = false := by
  cases hres : occursIn brP ("Source: <a href=".toList ++ (sq.toList ++ (v ++ (sq.toList ++
      (">".toList ++ (v ++ "</a>".toList)))))) with
  | false => rfl
  | true =>
      exfalso
      rcases occursIn_append_or brP _ _ hres with h1 | h1 | ⟨x1, sfx, hx, hs1, hs2, hs3⟩
      · exact absurd h1 (by decide)
      · rcases occursIn_append_or brP _ _ h1 with h2 | h2 | ⟨x1, sfx, hx, hs1, hs2, hs3⟩
        · exact absurd h2 (by decide)
        · rcases occursIn_append_or brP _ _ h2 with h3 | h3 | ⟨x1, sfx, hx, hs1, hs2, hs3⟩
          · exact absurd (hv.symm.trans h3) (by decide)
          · rcases occursIn_append_or brP _ _ h3 with h4 | h4 | ⟨x1, sfx, hx, hs1, hs2, hs3⟩
            · exact absurd h4 (by decide)
            · rcases occursIn_append_or brP _ _ h4 with h5 | h5 | ⟨x1, sfx, hx, hs1, hs2, hs3⟩
              · exact absurd h5 (by decide)
              · rcases occursIn_append_or brP _ _ h5 with h6 | h6 | ⟨x1, sfx, hx, hs1, hs2, hs3⟩
                · exact absurd (hv.symm.trans h6) (by decide)
                · exact absurd h6 (by decide)
                · -- occurrence straddling the second copy of v and "</a>"
                  have h5' : sfx.length < 5 := by
                    have := hs2; simp [brP] at this; exact this
                  obtain ⟨-, hy⟩ := straddle_heads hs1 h5' hs3
                  have hyc : ("</a>".toList).head? = some '<' := rfl
                  rcases hy with h | h | h | h <;> rw [hyc] at h <;>
                    exact absurd (Option.some.inj h) (by decide)
              · -- occurrence straddling ">" and the rest
                have h5' : sfx.length < 5 := by
                  have := hs2; simp [brP] at this; exact this
                obtain ⟨hshead, -⟩ := straddle_heads hs1 h5' hs3
                exact absurd hshead (no_head_lt_suffix_single '>' (by decide) x1 sfx hx hs1)
            · -- occurrence straddling the second quote and the rest
              have h5' : sfx.length < 5 := by
                have := hs2; simp [brP] at this; exact this
              obtain ⟨hshead, -⟩ := straddle_heads hs1 h5' hs3
              exact absurd hshead
                (no_head_lt_suffix_single (Char.ofNat 39) (by decide) x1 sfx hx hs1)
          · -- occurrence straddling the first copy of v and the rest
            have h5' : sfx.length < 5 := by
              have := hs2; simp [brP] at this; exact this
            obtain ⟨-, hy⟩ := straddle_heads hs1 h5' hs3
            have hyq : (sq.toList ++ (">".toList ++ (v ++ "</a>".toList))).head? =
                some (Char.ofNat 39) := rfl
            rcases hy with h | h | h | h <;> rw [hyq] at h <;>
              exact absurd (Option.some.inj h) (by decide)
        · -- occurrence straddling the first quote and the rest
          have h5' : sfx.length < 5 := by
            have := hs2; simp [brP] at this; exact this
          obtain ⟨hshead, -⟩ := straddle_heads hs1 h5' hs3
          exact absurd hshead
            (no_head_lt_suffix_single (Char.ofNat 39) (by decide) x1 sfx hx hs1)
      · -- occurrence straddling "Source: <a href=" and the rest
        have h5' : sfx.length < 5 := by
          have := hs2; simp [brP] at this; exact this
        obtain ⟨hshead, -⟩ := straddle_heads hs1 h5' hs3
        exact absurd hshead (no_head_lt_suffix_src x1 sfx hx hs1 h5')

theorem C4_amended_witness :
    (selectOption sCE "UK").search_topic = "UK" ∧
    (resolveSearch lookupCE (selectOption sCE "UK")).last_article =
      some { title := "United Kingdom", summary := "Summary of the UK",
             url := "https://en.wikipedia.org/wiki/United_Kingdom" } :=
  C4_amended_select_resolves lookupCE sCE "UK" "United Kingdom" "Summary of the UK"
    "https://en.wikipedia.org/wiki/United_Kingdom" (by decide) rfl (by decide)

theorem toList_append (a b : String) : (a ++ b).toList = a.toList ++ b.toList :=
  String.data_append a b

theorem toList_asString (l : List Char) : (List.asString l).toList = l := rfl

theorem nl_toList : "\n".toList = nlP := by decide

theorem br_toList : "<br/>".toList = brP := by decide

theorem renderParagraph_toList (x : String) :
    (renderParagraph x).toList = replChars brP nlP x.toList := by
  simp only [renderParagraph, replaceStr, toList_asString, br_toList, nl_toList]

theorem summaryPara_toList (s : String) :
    (replaceStr s "\n" "<br/>").toList = replChars nlP brP s.toList := by
  simp only [replaceStr, toList_asString, br_toList, nl_toList]

/-- C5 as stated is false: the export encodes newlines in the summary as
`<br/>` markup, so a summary that itself contains the literal text `<br/>`
is rendered with a line break there and the extracted text does not contain
the summary verbatim.  Concretely, the Article ("T", "a<br/>b", "http://x")
yields a PDF whose extracted text does not contain "a<br/>b". -/
theorem C5_counterexample :
    occursStr "a<br/>b" (pdfTextContent (create_pdf "T" "a<br/>b" "http://x")) = false := by
  have hpdf : pdfTextContent (create_pdf "T" "a<br/>b" "http://x") =
      renderParagraph "T" ++ "\n" ++
        (renderParagraph (replaceStr "a<br/>b" "\n" "<br/>") ++ "\n" ++
          renderParagraph (sourceLine "http://x")) := rfl
  have hdata : (pdfTextContent (create_pdf "T" "a<br/>b" "http://x")).toList =
      replChars brP nlP "T".toList ++ (nlP ++
        (replChars brP nlP (replChars nlP brP "a<br/>b".toList) ++ (nlP ++
          replChars brP nlP (sourceLine "http://x").toList))) := by
    rw [hpdf]
    simp only [toList_append, List.append_assoc, renderParagraph_toList,
      summaryPara_toList, nl_toList]
  have hT : replChars brP nlP "T".toList = "T".toList :=
    replChars_of_not_occurs _ _ _ (by decide)
  have hmid : replChars nlP brP "a<br/>b".toList = "a<br/>b".toList :=
    replChars_of_not_occurs _ _ _ (by decide)
  have e1 : "a<br/>b".toList = 'a' :: (brP ++ ['b']) := by decide
  have hmid2 : replChars brP nlP "a<br/>b".toList = 'a' :: ('\n' :: ('b' :: [])) := by
    rw [e1, replChars_cons_neg _ _ _ _ (by decide),
      replChars_pat_head _ _ _ (by simp [brP]),
      replChars_cons_neg _ _ _ _ (by decide), replChars_nil]
    rfl
  have hsl2 : (sourceLine "http://x").toList =
      "Source: <a href=".toList ++ (sq.toList ++ ("http://x".toList ++ (sq.toList ++
        (">".toList ++ ("http://x".toList ++ "</a>".toList))))) := by
    simp only [sourceLine, toList_append, List.append_assoc]
  have hslno2 : occursIn brP (sourceLine "http://x").toList = false := by
    rw [hsl2]
    exact sourceLine_no_br _ (by decide)
  have hSL : replChars brP nlP (sourceLine "http://x").toList = (sourceLine "http://x").toList :=
    replChars_of_not_occurs _ _ _ hslno2
  have hfinal : (pdfTextContent (create_pdf "T" "a<br/>b" "http://x")).toList =
      "T".toList ++ (nlP ++ (('a' :: ('\n' :: ('b' :: []))) ++
        (nlP ++ (sourceLine "http://x").toList))) := by
    rw [hdata, hT, hmid, hmid2, hSL]
  show occursIn "a<br/>b".toList (pdfTextContent (create_pdf "T" "a<br/>b" "http://x")).toList
      = false
  rw [hfinal]
  decide

/-- C5 amended: for every Article none of whose three fields contains the
literal five-character string `<br/>`, the textual content extracted from
the exported PDF contains the Article's title, its full summary text and
its url as substrings. -/
theorem C5_export_roundtrip_containment (t s u : String)
    (ht : occursStr "<br/>" t = false)
    (hs : occursStr "<br/>" s = false)
    (hu : occursStr "<br/>" u = false) :
    occursStr t (pdfTextContent (create_pdf t s u)) = true ∧
    occursStr s (pdfTextContent (create_pdf t s u)) = true ∧
    occursStr u (pdfTextContent (create_pdf t s u)) = true := by
  have hpdf : pdfTextContent (create_pdf t s u) =
      renderParagraph t ++ "\n" ++
        (renderParagraph (replaceStr s "\n" "<br/>") ++ "\n" ++
          renderParagraph (sourceLine u)) := rfl
  have ht' : occursIn brP t.toList = false := by rw [← br_toList]; exact ht
  have hs' : occursIn brP s.toList = false := by rw [← br_toList]; exact hs
  have hu' : occursIn brP u.toList = false := by rw [← br_toList]; exact hu
  have hsl : (sourceLine u).toList =
      "Source: <a href=".toList ++ (sq.toList ++ (u.toList ++ (sq.toList ++
        (">".toList ++ (u.toList ++ "</a>".toList))))) := by
    simp only [sourceLine, toList_append, List.append_assoc]
  have hslno : occursIn brP (sourceLine u).toList = false := by
    rw [hsl]; exact sourceLine_no_br u.toList hu'
  have hdata : (pdfTextContent (create_pdf t s u)).toList =
      replChars brP nlP t.toList ++ (nlP ++
        (replChars brP nlP (replChars nlP brP s.toList) ++ (nlP ++
          replChars brP nlP (sourceLine u).toList))) := by
    rw [hpdf]
    simp only [toList_append, List.append_assoc, renderParagraph_toList,
      summaryPara_toList, nl_toList]
  have hL : (pdfTextContent (create_pdf t s u)).toList =
      t.toList ++ (nlP ++ (s.toList ++ (nlP ++ (sourceLine u).toList))) := by
    rw [hdata, replChars_of_not_occurs brP nlP t.toList ht',
      replRoundTrip s.toList hs',
      replChars_of_not_occurs brP nlP (sourceLine u).toList hslno]
  refine ⟨?_, ?_, ?_⟩
  · show occursIn t.toList (pdfTextContent (create_pdf t s u)).toList = true
    rw [hL]
    exact occursIn_self_append t.toList _
  · show occursIn s.toList (pdfTextContent (create_pdf t s u)).toList = true
    rw [hL]
    exact occursIn_append_right _ _ _
      (occursIn_append_right _ _ _ (occursIn_self_append s.toList _))
  · show occursIn u.toList (pdfTextContent (create_pdf t s u)).toList = true
    rw [hL, hsl]
    exact occursIn_append_right _ _ _ (occursIn_append_right _ _ _
      (occursIn_append_right _ _ _ (occursIn_append_right _ _ _
        (occursIn_append_right _ _ _ (occursIn_append_right _ _ _
          (occursIn_self_append u.toList _))))))

theorem C5_export_roundtrip_witness :
    occursStr "T" (pdfTextContent (create_pdf "T" "line one\nline two" "http://x")) = true ∧
    occursStr "line one\nline two"
      (pdfTextContent (create_pdf "T" "line one\nline two" "http://x")) = true ∧
    occursStr "http://x" (pdfTextContent (create_pdf "T" "line one\nline two" "http://x")) = true :=
  C5_export_roundtrip_containment "T" "line one\nline two" "http://x"
    (by decide) (by decide) (by decide)

end Chrono
